import Mathlib

/-
Shallow embedding of the `runner` package's core: the multi-reader growable
buffer with its blocking reader handles (src/unnamed/part_000) and the
cancellable, resumable keyword scanner built on top of it
(src/unnamed/part_001).

Modelling conventions:
- Go bytes are modelled as `Char` (no claim depends on the byte range);
  Go `[]byte` values become `List Char`.
- Go's `(n int, err error)` returns become explicit tuples with
  `Option GoErr` in the error position; `io.EOF` is the `GoErr.eof`
  value, which by Go convention signals end of stream and is not a failure.
- A read that would suspend on the condition variable is an explicit
  `blocked` outcome rather than a value: a blocked call has not returned,
  and completes at a later buffer state (modelled as a later observation).
- `sync.Mutex` lock/unlock placement is tracked by separate
  `...LockAtReturn` functions that transcribe, path by path, the lock
  state at the moment each source function returns.
-/

namespace Runner

/-- Error values that appear in the package, as a closed inductive type.
`closedPipe` is `io.ErrClosedPipe`, `eof` is `io.EOF`, `ctxCanceled` is the
error of an already-done `context.Context`, `keywordNotFound s` is the
`fmt.Errorf` wrap of the `KeywordNotFound` sentinel around substring `s`,
and `ioErr m` stands for any other underlying I/O error. -/
inductive GoErr where
  | closedPipe
  | eof
  | ctxCanceled
  | keywordNotFound (substr : List Char)
  | ioErr (msg : String)
deriving DecidableEq, Repr

/-- Go convention: a `nil` error and `io.EOF` are not failures; `io.EOF`
is the normal end-of-stream signal. Every other error value is a failure. -/
def isFailure : Option GoErr → Bool
  | none => false
  | some GoErr.eof => false
  | some _ => true

/-- State of `multiReaderBuffer` (part_000:17-22): the append-only byte
store `buf` and the writer-side `closed` flag. The mutex/condvar have no
pure-state content; their lock discipline is tracked separately. -/
structure MRBuffer where
  buf : List Char
  closed : Bool
deriving DecidableEq, Repr

/-- `multiReaderBuffer.Write` (part_000:32-44): a zero-length write is a
no-op returning 0; a write on a closed buffer fails with
`io.ErrClosedPipe` and appends nothing; otherwise the payload is appended
and its length returned. -/
def MRBuffer.Write (b : MRBuffer) (p : List Char) : MRBuffer × Nat × Option GoErr :=
  if p.length = 0 then (b, 0, none)
  else if b.closed then (b, 0, some GoErr.closedPipe)
  else (⟨b.buf ++ p, b.closed⟩, p.length, none)

/-- `multiReaderBuffer.Close` (part_000:52-58): sets `closed`, never fails. -/
def MRBuffer.Close (b : MRBuffer) : MRBuffer × Option GoErr :=
  (⟨b.buf, true⟩, none)

/-- State of `multiBufferReader` (part_000:60-64): the private cursor
`offset` and the handle's own `closed` flag. The `source` pointer is
passed explicitly to `Read`. -/
structure MBReader where
  offset : Nat
  closed : Bool
deriving DecidableEq, Repr

/-- `multiReaderBuffer.NewReader` (part_000:47-49): a fresh handle always
starts at offset 0 and open, whatever the buffer state. -/
def MRBuffer.NewReader (_b : MRBuffer) : MBReader :=
  ⟨0, false⟩

/-- Outcome of one call to `multiBufferReader.Read`: either the call
returned `(n, data, err)`, or it suspended on the condition variable
(empty remainder on an open buffer). -/
inductive ReadRes where
  | ret (n : Nat) (data : List Char) (e : Option GoErr)
  | blocked
deriving DecidableEq, Repr

/-- `multiBufferReader.Read` (part_000:70-96) against the buffer state it
observes under the lock. A zero-length request returns `(0, nil)` before
anything else; a closed handle fails with `io.ErrClosedPipe`; otherwise
`n = copy(p, buf[offset:])` copies `min maxBytes (buf.length - offset)`
bytes; if nothing was copied the call blocks when the source is open and
returns `(0, io.EOF)` when it is closed; else the offset advances by `n`. -/
def MBReader.Read (b : MRBuffer) (r : MBReader) (maxBytes : Nat) : ReadRes × MBReader :=
  if maxBytes = 0 then (ReadRes.ret 0 [] none, r)
  else if r.closed then (ReadRes.ret 0 [] (some GoErr.closedPipe), r)
  else if ((b.buf.drop r.offset).take maxBytes).length = 0 then
    if b.closed then (ReadRes.ret 0 [] (some GoErr.eof), r)
    else (ReadRes.blocked, r)
  else
    (ReadRes.ret ((b.buf.drop r.offset).take maxBytes).length
      ((b.buf.drop r.offset).take maxBytes) none,
     ⟨r.offset + ((b.buf.drop r.offset).take maxBytes).length, false⟩)

/-- `multiBufferReader.Close` (part_000:99-105): sets the handle's own
`closed` flag; never fails; the buffer itself is untouched. -/
def MBReader.Close (r : MBReader) : MBReader × Option GoErr :=
  (⟨r.offset, true⟩, none)

/-! Lock accounting: the state of the buffer's mutex at the moment each
operation returns, transcribed from the `Lock`/`Unlock` calls on every
return path of the source. -/

/-- State of the buffer's mutex at a return point. -/
inductive LockState where
  | free
  | held
deriving DecidableEq, Repr

/-- Lock state when `multiReaderBuffer.Write` returns. The zero-length
path (part_000:33-35) returns before taking the lock; the closed path
(part_000:37-39) returns WITHOUT calling `Unlock`; the append path
unlocks at part_000:42 before returning. -/
def writeLockAtReturn (b : MRBuffer) (p : List Char) : LockState :=
  if p.length = 0 then LockState.free
  else if b.closed then LockState.held
  else LockState.free

/-- Lock state when `multiReaderBuffer.Close` returns: its single path
unlocks at part_000:56 before returning. -/
def closeLockAtReturn (_b : MRBuffer) : LockState :=
  LockState.free

/-- Lock state when `multiBufferReader.Read` returns: the zero-length
path (part_000:71-73) returns before locking; the closed-handle path
unlocks at part_000:79 before returning; every other returning path
unlocks at part_000:90 first (the `Wait` at part_000:85 releases the lock
while suspended and is not a return). -/
def readLockAtReturn (_b : MRBuffer) (r : MBReader) (maxBytes : Nat) : LockState :=
  if maxBytes = 0 then LockState.free
  else if r.closed then LockState.free
  else LockState.free

/-- Lock state when `multiBufferReader.Close` returns: its single path
unlocks at part_000:103 before returning. -/
def readerCloseLockAtReturn (_r : MBReader) : LockState :=
  LockState.free

end Runner

namespace Runner

/-! Claims C4, C5, C9: the reader handle's read contract and the
closed-buffer write contract. -/

/-- C4 counterexample: the claim asserts that a read on a consumer-closed
handle fails with the handle-closed error "for every request size
maxBytes including zero". The source checks `len(p) == 0` before the
handle's closed flag (part_000:71-73 before 78-81), so a zero-length read
on a closed handle returns `(0, nil)` with no error. -/
theorem c4_counterexample :
    MBReader.Read ⟨['a'], false⟩ ⟨0, true⟩ 0 = (ReadRes.ret 0 [] none, ⟨0, true⟩) := by
  rfl

/-- C4 amended: for every request size maxBytes > 0 and every buffer
state, a read on a handle closed by its consumer fails immediately with
the handle-closed error (`io.ErrClosedPipe`) and does not advance the
handle's offset; a zero-length request instead returns `(0, nil)` with no
error, regardless of the handle's closed flag. -/
theorem c4_closed_handle_read (b : MRBuffer) (r : MBReader) (maxBytes : Nat)
    (hc : r.closed = true) (hm : 0 < maxBytes) :
    MBReader.Read b r maxBytes = (ReadRes.ret 0 [] (some GoErr.closedPipe), r) ∧
    MBReader.Read b r 0 = (ReadRes.ret 0 [] none, r) := by
  constructor
  · simp [MBReader.Read, hc, Nat.pos_iff_ne_zero.mp hm]
  · simp [MBReader.Read]

/-- C4 witness: the amended statement evaluated at a closed handle over a
closed, non-empty buffer with request size 4. -/
theorem c4_closed_handle_read_witness :
    MBReader.Read ⟨['a', 'b'], true⟩ ⟨1, true⟩ 4
      = (ReadRes.ret 0 [] (some GoErr.closedPipe), ⟨1, true⟩) ∧
    MBReader.Read ⟨['a', 'b'], true⟩ ⟨1, true⟩ 0
      = (ReadRes.ret 0 [] none, ⟨1, true⟩) :=
  c4_closed_handle_read ⟨['a', 'b'], true⟩ ⟨1, true⟩ 4 rfl (by decide)

/-- C5: a read of maxBytes > 0 on an open handle with a valid cursor:
when `available = content[offset:]` is non-empty the call returns
`n = min maxBytes available.length` bytes equal to
`content[offset : offset + n]` with no error and advances the offset by
exactly n (so the offset does not decrease and stays ≤ the content
length); when `available` is empty and the buffer is closed the call
returns 0 bytes with the end-of-stream status `io.EOF`, which is not a
failure. -/
theorem c5_open_handle_read (b : MRBuffer) (r : MBReader) (maxBytes : Nat)
    (hc : r.closed = false) (hm : 0 < maxBytes) (hoff : r.offset ≤ b.buf.length) :
    (b.buf.drop r.offset ≠ [] →
      MBReader.Read b r maxBytes =
        (ReadRes.ret (min maxBytes (b.buf.length - r.offset))
          ((b.buf.drop r.offset).take maxBytes) none,
         ⟨r.offset + min maxBytes (b.buf.length - r.offset), false⟩) ∧
      r.offset ≤ r.offset + min maxBytes (b.buf.length - r.offset) ∧
      r.offset + min maxBytes (b.buf.length - r.offset) ≤ b.buf.length) ∧
    (b.buf.drop r.offset = [] → b.closed = true →
      MBReader.Read b r maxBytes = (ReadRes.ret 0 [] (some GoErr.eof), r) ∧
      isFailure (some GoErr.eof) = false) := by
  constructor
  · intro hne
    have hlen : ((b.buf.drop r.offset).take maxBytes).length
        = min maxBytes (b.buf.length - r.offset) := by
      simp [List.length_take, List.length_drop]
    have hpos : ((b.buf.drop r.offset).take maxBytes).length ≠ 0 := by
      rw [hlen]
      have h1 : b.buf.drop r.offset ≠ [] := hne
      have h2 : 0 < (b.buf.drop r.offset).length := List.length_pos.mpr h1
      simp [List.length_drop] at h2
      omega
    refine ⟨?_, ?_, ?_⟩
    · simp only [MBReader.Read, hc, Nat.pos_iff_ne_zero.mp hm, if_false, Bool.false_eq_true,
        if_neg hpos]
      rw [hlen]
    · omega
    · omega
  · intro hav hcl
    have hz : ((b.buf.drop r.offset).take maxBytes).length = 0 := by
      simp [hav]
    constructor
    · simp only [MBReader.Read, hc, Nat.pos_iff_ne_zero.mp hm, if_false, Bool.false_eq_true,
        hz, if_pos rfl, hcl, if_true]
    · rfl

/-- C5 witness: the statement evaluated at an open handle with offset 1
over the open buffer "abc" with request size 5 (non-empty branch), and
at offset 3 over the closed buffer "abc" (end-of-stream branch is
vacuous in the first instance and exercised in the second). -/
theorem c5_open_handle_read_witness :
    ((['a', 'b', 'c'].drop 1 ≠ ([] : List Char) →
      MBReader.Read ⟨['a', 'b', 'c'], false⟩ ⟨1, false⟩ 5 =
        (ReadRes.ret (min 5 (['a', 'b', 'c'].length - 1))
          ((['a', 'b', 'c'].drop 1).take 5) none,
         ⟨1 + min 5 (['a', 'b', 'c'].length - 1), false⟩) ∧
      1 ≤ 1 + min 5 (['a', 'b', 'c'].length - 1) ∧
      1 + min 5 (['a', 'b', 'c'].length - 1) ≤ ['a', 'b', 'c'].length) ∧
    (['a', 'b', 'c'].drop 1 = [] → (⟨['a', 'b', 'c'], false⟩ : MRBuffer).closed = true →
      MBReader.Read ⟨['a', 'b', 'c'], false⟩ ⟨1, false⟩ 5 = (ReadRes.ret 0 [] (some GoErr.eof), ⟨1, false⟩) ∧
      isFailure (some GoErr.eof) = false)) :=
  c5_open_handle_read ⟨['a', 'b', 'c'], false⟩ ⟨1, false⟩ 5 rfl (by decide) (by decide)

/-- C9: a non-empty write on a closed buffer fails with the closed-buffer
error `io.ErrClosedPipe` and leaves the buffer state (content and flag)
exactly as it was. -/
theorem c9_write_after_close (b : MRBuffer) (p : List Char)
    (hc : b.closed = true) (hp : p ≠ []) :
    MRBuffer.Write b p = (b, 0, some GoErr.closedPipe) := by
  have hl : p.length ≠ 0 := by
    simpa [List.length_eq_zero] using hp
  simp [MRBuffer.Write, hl, hc]

/-- C9 witness: the statement evaluated at the closed buffer "ab" and the
payload "c". -/
theorem c9_write_after_close_witness :
    MRBuffer.Write ⟨['a', 'b'], true⟩ ['c'] = (⟨['a', 'b'], true⟩, 0, some GoErr.closedPipe) :=
  c9_write_after_close ⟨['a', 'b'], true⟩ ['c'] rfl (by decide)

/-! The scanner side (src/unnamed/part_001): the cancellable read wrapper,
the line tokenizer view of a stream, and the two `WaitForKeyword` entry
points. The line tokenizer is Go's `bufio.Scanner` with the default
`ScanLines` split: it serves the stream line by line (newline-terminated,
a trailing `\r` stripped, a final unterminated segment served at EOF),
returns false from `Scan` at end of input or on a read error, and reports
that error (`nil` after a clean EOF) through `Err`. -/

/-- `strings.Contains` helper: does the first list start with the second? -/
def startsWithL : List Char → List Char → Bool
  | _, [] => true
  | [], _ :: _ => false
  | c :: s, d :: p => c = d && startsWithL s p

/-- `strings.Contains line substr` (part_001:114): `substr` occurs as a
contiguous segment of `line` (the empty pattern always matches). -/
def containsSub : List Char → List Char → Bool
  | [], pat => startsWithL [] pat
  | c :: s, pat => startsWithL (c :: s) pat || containsSub s pat

/-- Split a character stream at every newline; the segment after the last
newline (possibly empty) is always present. -/
def splitNLAux (cur : List Char) : List Char → List (List Char)
  | [] => [cur.reverse]
  | c :: rest => if c = '\n' then cur.reverse :: splitNLAux [] rest else splitNLAux (c :: cur) rest

/-- `bufio.ScanLines` strips one trailing carriage return from a line. -/
def dropCR (l : List Char) : List Char :=
  if l.getLast? = some '\r' then l.dropLast else l

/-- The lines `bufio.Scanner` yields over a fully terminated stream (EOF
reached): every newline-separated segment, the final segment only when it
is non-empty (a stream ending in `\n` has no extra empty line). -/
def goScanLines (s : List Char) : List (List Char) :=
  let parts := splitNLAux [] s
  (if parts.getLast? = some [] then parts.dropLast else parts).map dropCR

/-- The lines `bufio.Scanner` can yield so far over a still-growing
stream: only the newline-terminated segments; the tokenizer holds back
the unterminated tail until more data or EOF arrives. -/
def completedLines (s : List Char) : List (List Char) :=
  ((splitNLAux [] s).dropLast).map dropCR

/-- What the tokenizer does once its served lines run out: report a clean
end of stream, fail with a read error, or block waiting for more data. -/
inductive EndB where
  | eofEnd
  | fail (e : GoErr)
  | blocks
deriving DecidableEq, Repr

/-- The line-level view of a `bufio.Scanner`: the lines still to serve and
the behaviour at their end. This is the tokenizer state that persists
across `waitForKeyword` calls. -/
structure LineScanner where
  lines : List (List Char)
  atEnd : EndB
deriving DecidableEq, Repr

/-- Outcome of one `waitForKeyword` call: the call returned with the
tokenizer left in state `sc` and result `e`, or it is still blocked
waiting for stream data. -/
inductive ScanRes where
  | ret (sc : LineScanner) (e : Option GoErr)
  | blocks
deriving DecidableEq, Repr

/-- The loop of `waitForKeyword` (part_001:111-129) over the line view,
with the cancellation signal a fixed boolean (`true` = already
triggered). Per line: a substring match returns `nil` first; otherwise
the `select` on the signal returns the cancellation error; otherwise the
loop continues. When `Scan` reports no more lines: a pending tokenizer
error is returned unchanged (part_001:125-127), a clean end of stream
becomes the `KeywordNotFound` wrap (part_001:128), and on a still-open
stream the blocked `Scan` is unblocked by a triggered signal (the
cancellable reader fails the read with the cancellation error, which
`Err` then reports) and otherwise stays blocked. -/
def waitForKeywordAux (ctxDone : Bool) (atEnd : EndB) (substr : List Char) :
    List (List Char) → ScanRes
  | [] =>
    match atEnd with
    | EndB.eofEnd => ScanRes.ret ⟨[], EndB.eofEnd⟩ (some (GoErr.keywordNotFound substr))
    | EndB.fail e => ScanRes.ret ⟨[], EndB.fail e⟩ (some e)
    | EndB.blocks =>
      if ctxDone then ScanRes.ret ⟨[], EndB.fail GoErr.ctxCanceled⟩ (some GoErr.ctxCanceled)
      else ScanRes.blocks
  | l :: rest =>
    if containsSub l substr then ScanRes.ret ⟨rest, atEnd⟩ none
    else if ctxDone then ScanRes.ret ⟨rest, atEnd⟩ (some GoErr.ctxCanceled)
    else waitForKeywordAux ctxDone atEnd substr rest

/-- `waitForKeyword` (part_001:111-129) on a tokenizer state. -/
def waitForKeyword (ctxDone : Bool) (sc : LineScanner) (substr : List Char) : ScanRes :=
  waitForKeywordAux ctxDone sc.atEnd substr sc.lines

/-- State of `cancellableReader` (part_001:58-61) over a reader handle of
a shared buffer: the wrapped handle and whether the captured context is
done. -/
structure cancellableReader where
  r : MBReader
  ctxDone : Bool
deriving DecidableEq, Repr

/-- Outcome of `cancellableReader.Read`: the call returned `(n, data, e)`
leaving the wrapper in state `c`, or both the underlying read and the
cancellation wait are still pending. -/
inductive CRRes where
  | ret (n : Nat) (data : List Char) (e : Option GoErr) (c : cancellableReader)
  | blocks
deriving DecidableEq, Repr

/-- `cancellableReader.Read` (part_001:68-85): the underlying read is
started as its own goroutine and raced against the context. `cancelFirst`
resolves the race when both could win (the context is already done and
the underlying read can complete): `true` selects the cancellation
branch, which closes the underlying handle and returns
`(0, ctx.Err())` without waiting for the abandoned read; `false` selects
the completed read, whose result is returned unchanged. When the
underlying read blocks, a done context still wins; an undone context
leaves the call blocked. -/
def cancellableReader.Read (b : MRBuffer) (c : cancellableReader) (maxBytes : Nat)
    (cancelFirst : Bool) : CRRes :=
  if c.ctxDone && cancelFirst then
    CRRes.ret 0 [] (some GoErr.ctxCanceled) ⟨⟨c.r.offset, true⟩, c.ctxDone⟩
  else
    match MBReader.Read b c.r maxBytes with
    | (ReadRes.ret n data e, r') => CRRes.ret n data e ⟨r', c.ctxDone⟩
    | (ReadRes.blocked, _) =>
      if c.ctxDone then CRRes.ret 0 [] (some GoErr.ctxCanceled) ⟨⟨c.r.offset, true⟩, c.ctxDone⟩
      else CRRes.blocks

/-- State of `StreamScanner` (part_001:87-91): the underlying stream's
content (fully available and then EOF, as with the test's string reader
or a drained closed buffer), the lazily constructed tokenizer (`none`
until the first `WaitForKeyword` call, mirroring `s.reader == nil`), and
two instrumentation fields: how many reads were attempted on the
underlying reader and whether the underlying handle was closed by the
cancellation path. -/
structure StreamScanner where
  source : List Char
  st : Option LineScanner
  attempts : Nat
  srcClosed : Bool
deriving DecidableEq, Repr

/-- Outcome of `StreamScanner.WaitForKeyword`. -/
inductive WFKRes where
  | ret (s : StreamScanner) (e : Option GoErr)
  | blocks
deriving DecidableEq, Repr

/-- `StreamScanner.WaitForKeyword` (part_001:99-109). There is NO check of
the context before scanning. On the first call the cancellable reader is
built around the source (bound to this call's context) together with a
fresh tokenizer, and the first `Scan` issues one read through the
wrapper, which either slurps the fully available source (the wrapper
returned the underlying result) or fails with the cancellation error
(closing the underlying handle). Later calls reuse the persisted
tokenizer, which resumes after the last consumed line; its buffered lines
are served without further reads. -/
def StreamScanner.WaitForKeyword (ctxDone cancelFirst : Bool) (s : StreamScanner)
    (substr : List Char) : WFKRes :=
  match s.st with
  | some sc =>
    match waitForKeyword ctxDone sc substr with
    | ScanRes.ret sc' e => WFKRes.ret { s with st := some sc' } e
    | ScanRes.blocks => WFKRes.blocks
  | none =>
    match cancellableReader.Read ⟨s.source, true⟩ ⟨⟨0, false⟩, ctxDone⟩
        (s.source.length + 1) cancelFirst with
    | CRRes.ret _ data e cr' =>
      let att := s.attempts + 1
      let sc0 : LineScanner :=
        match e with
        | none => ⟨goScanLines data, EndB.eofEnd⟩
        | some GoErr.eof => ⟨[], EndB.eofEnd⟩
        | some err => ⟨[], EndB.fail err⟩
      match waitForKeyword ctxDone sc0 substr with
      | ScanRes.ret sc' e' =>
        WFKRes.ret { s with st := some sc', attempts := att, srcClosed := cr'.r.closed } e'
      | ScanRes.blocks => WFKRes.blocks
    | CRRes.blocks => WFKRes.blocks

/-- State of `AccumulatedOutput` (part_001:17-20): the shared buffer it
accumulates into. The tee sink `out` forwards bytes elsewhere and holds
no state of its own. -/
structure AccumulatedOutput where
  buf : MRBuffer
deriving DecidableEq, Repr

/-- `AccumulatedOutput.Write` (part_001:30-32): the multi-writer forwards
every payload to the buffer (the tee sink is stateless here). -/
def AccumulatedOutput.Write (a : AccumulatedOutput) (p : List Char) :
    AccumulatedOutput × Nat × Option GoErr :=
  let w := MRBuffer.Write a.buf p
  (⟨w.1⟩, w.2)

/-- `AccumulatedOutput.Close` (part_001:34-36): closes the buffer. -/
def AccumulatedOutput.Close (a : AccumulatedOutput) : AccumulatedOutput × Option GoErr :=
  (⟨(MRBuffer.Close a.buf).1⟩, none)

/-- Outcome of `AccumulatedOutput.WaitForKeyword`: the call returned `e`
having created a fresh reader or not, or it is blocked on stream data. -/
inductive AccRes where
  | done (e : Option GoErr) (readerCreated : Bool)
  | blocks
deriving DecidableEq, Repr

/-- `AccumulatedOutput.WaitForKeyword` (part_001:44-56): first the
`select` on the context (part_001:45-49) returns the cancellation error
immediately when the signal is already triggered, before any reader
exists; otherwise a FRESH reader handle is created at offset 0
(`s.NewReader`, part_000:47-49), wrapped, and a fresh tokenizer scans the
buffer from the very beginning: over a closed buffer it serves all lines
then reports EOF, over an open buffer it serves the newline-terminated
lines and then blocks. The accumulated buffer itself is never modified by
a search, and the reader/tokenizer are locals discarded on return. -/
def AccumulatedOutput.WaitForKeyword (ctxDone : Bool) (a : AccumulatedOutput)
    (substr : List Char) : AccumulatedOutput × AccRes :=
  if ctxDone then (a, AccRes.done (some GoErr.ctxCanceled) false)
  else
    let r := MRBuffer.NewReader a.buf
    let sc : LineScanner :=
      if a.buf.closed then ⟨goScanLines (a.buf.buf.drop r.offset), EndB.eofEnd⟩
      else ⟨completedLines (a.buf.buf.drop r.offset), EndB.blocks⟩
    match waitForKeyword false sc substr with
    | ScanRes.ret _ e => (a, AccRes.done e true)
    | ScanRes.blocks => (a, AccRes.blocks)

/-! Helper lemmas about the keyword loop. -/

/-- When no served line contains the pattern, the loop consumes every line
(the signal never triggered) and reaches the end-of-lines case. -/
lemma waitForKeywordAux_all_miss (atEnd : EndB) (substr : List Char)
    (lines : List (List Char)) (h : ∀ l ∈ lines, containsSub l substr = false) :
    waitForKeywordAux false atEnd substr lines = waitForKeywordAux false atEnd substr [] := by
  induction lines with
  | nil => rfl
  | cons l rest ih =>
    have hl : containsSub l substr = false := h l (by simp)
    have ih' := ih (fun x hx => h x (by simp [hx]))
    simpa [waitForKeywordAux, hl] using ih'

/-- When some served line contains the pattern, the loop (with the signal
never triggered) succeeds with a `nil` result. -/
lemma waitForKeywordAux_finds (atEnd : EndB) (substr : List Char)
    (lines : List (List Char)) (h : ∃ l ∈ lines, containsSub l substr = true) :
    ∃ sc', waitForKeywordAux false atEnd substr lines = ScanRes.ret sc' none := by
  induction lines with
  | nil => simp at h
  | cons l rest ih =>
    by_cases hl : containsSub l substr = true
    · exact ⟨⟨rest, atEnd⟩, by simp [waitForKeywordAux, hl]⟩
    · have hl' : containsSub l substr = false := by
        simpa using hl
      obtain ⟨x, hx, hcx⟩ := h
      rcases List.mem_cons.mp hx with h1 | h2
      · rw [h1] at hcx
        rw [hcx] at hl'
        exact absurd hl' (by simp)
      · obtain ⟨sc', hsc⟩ := ih ⟨x, h2, hcx⟩
        exact ⟨sc', by simp [waitForKeywordAux, hl', hsc]⟩

/-! Claims C3, C6, C7, C8, C10. -/

/-- C7: the cancellable read wrapper. (i) When the underlying read
completes before the cancellation branch is selected, its result is
returned unchanged. (ii) When the cancellation signal fires first, the
wrapper closes the underlying reader handle and returns
`(0, cancellation error)` without consuming the abandoned read's result.
(iii) A subsequent read of any positive size through the retired wrapper,
when its underlying read (which returns at once on the closed handle) is
the selected branch, observes the handle-closed error. -/
theorem c7_cancellable_read (b : MRBuffer) (c : cancellableReader) (maxBytes : Nat)
    (cancelFirst : Bool) :
    ((c.ctxDone && cancelFirst) = false →
      ∀ n data e r', MBReader.Read b c.r maxBytes = (ReadRes.ret n data e, r') →
        cancellableReader.Read b c maxBytes cancelFirst = CRRes.ret n data e ⟨r', c.ctxDone⟩) ∧
    (c.ctxDone = true →
      cancellableReader.Read b c maxBytes true
        = CRRes.ret 0 [] (some GoErr.ctxCanceled) ⟨⟨c.r.offset, true⟩, true⟩) ∧
    (∀ maxB2, 0 < maxB2 →
      cancellableReader.Read b ⟨⟨c.r.offset, true⟩, c.ctxDone⟩ maxB2 false
        = CRRes.ret 0 [] (some GoErr.closedPipe) ⟨⟨c.r.offset, true⟩, c.ctxDone⟩) := by
  refine ⟨?_, ?_, ?_⟩
  · intro hrace n data e r' hread
    simp [cancellableReader.Read, hrace, hread]
  · intro hd
    simp [cancellableReader.Read, hd]
  · intro maxB2 hm
    simp [cancellableReader.Read, MBReader.Read, Nat.pos_iff_ne_zero.mp hm]

/-- C7 witness: over the closed buffer "hi" with a done context: the
read-wins schedule returns the underlying data unchanged, the
cancel-wins schedule retires the handle with the cancellation error, and
the subsequent read through the retired wrapper reports handle-closed. -/
theorem c7_cancellable_read_witness :
    cancellableReader.Read ⟨['h', 'i'], true⟩ ⟨⟨0, false⟩, true⟩ 3 false
      = CRRes.ret 2 ['h', 'i'] none ⟨⟨2, false⟩, true⟩ ∧
    cancellableReader.Read ⟨['h', 'i'], true⟩ ⟨⟨0, false⟩, true⟩ 3 true
      = CRRes.ret 0 [] (some GoErr.ctxCanceled) ⟨⟨0, true⟩, true⟩ ∧
    cancellableReader.Read ⟨['h', 'i'], true⟩ ⟨⟨0, true⟩, true⟩ 3 false
      = CRRes.ret 0 [] (some GoErr.closedPipe) ⟨⟨0, true⟩, true⟩ := by
  have h := c7_cancellable_read ⟨['h', 'i'], true⟩ ⟨⟨0, false⟩, true⟩ 3 false
  exact ⟨h.1 (by decide) 2 ['h', 'i'] none ⟨2, false⟩ (by decide),
    h.2.1 rfl, h.2.2 3 (by decide)⟩

/-- C8: a search whose tokenizer reaches a clean end of stream with no
line containing the pattern fails with the `KeywordNotFound` wrap of the
pattern; that error differs from the cancellation error and from every
underlying I/O error; and a tokenizer-level error is propagated unchanged
instead. -/
theorem c8_keyword_not_found (lines : List (List Char)) (substr : List Char) (e : GoErr)
    (h : ∀ l ∈ lines, containsSub l substr = false) :
    waitForKeyword false ⟨lines, EndB.eofEnd⟩ substr
      = ScanRes.ret ⟨[], EndB.eofEnd⟩ (some (GoErr.keywordNotFound substr)) ∧
    GoErr.keywordNotFound substr ≠ GoErr.ctxCanceled ∧
    (∀ m, GoErr.keywordNotFound substr ≠ GoErr.ioErr m) ∧
    waitForKeyword false ⟨lines, EndB.fail e⟩ substr
      = ScanRes.ret ⟨[], EndB.fail e⟩ (some e) := by
  refine ⟨?_, by simp, fun m => by simp, ?_⟩
  · rw [waitForKeyword, waitForKeywordAux_all_miss _ _ _ h]
    rfl
  · rw [waitForKeyword, waitForKeywordAux_all_miss _ _ _ h]
    rfl

/-- C8 witness: the statement evaluated over the single line "abc", the
pattern "zz" it does not contain, and the I/O error "boom". -/
theorem c8_keyword_not_found_witness :
    waitForKeyword false ⟨["abc".data], EndB.eofEnd⟩ "zz".data
      = ScanRes.ret ⟨[], EndB.eofEnd⟩ (some (GoErr.keywordNotFound "zz".data)) ∧
    GoErr.keywordNotFound "zz".data ≠ GoErr.ctxCanceled ∧
    (∀ m, GoErr.keywordNotFound "zz".data ≠ GoErr.ioErr m) ∧
    waitForKeyword false ⟨["abc".data], EndB.fail (GoErr.ioErr "boom")⟩ "zz".data
      = ScanRes.ret ⟨[], EndB.fail (GoErr.ioErr "boom")⟩ (some (GoErr.ioErr "boom")) :=
  c8_keyword_not_found ["abc".data] "zz".data (GoErr.ioErr "boom") (by decide)

/-- The line stream of the resumability scenario (part_000's
`TestSearchSequence`). -/
def c6src : List Char := "one\ntwo\nthree\nfour\nfive".data

/-- The fresh scanner over `c6src`, before its first search. -/
def c6s0 : StreamScanner := ⟨c6src, none, 0, false⟩

/-- Scanner state after finding "one": positioned just past that line. -/
def c6s1 : StreamScanner :=
  ⟨c6src, some ⟨["two".data, "three".data, "four".data, "five".data], EndB.eofEnd⟩, 1, false⟩

/-- Scanner state after finding "two". -/
def c6s2 : StreamScanner :=
  ⟨c6src, some ⟨["three".data, "four".data, "five".data], EndB.eofEnd⟩, 1, false⟩

/-- Scanner state after finding "four": the search scanned past "three"
without matching, so "three" is consumed and unseen by later searches. -/
def c6s3 : StreamScanner := ⟨c6src, some ⟨["five".data], EndB.eofEnd⟩, 1, false⟩

/-- Scanner state after finding "five": the stream is exhausted. -/
def c6s4 : StreamScanner := ⟨c6src, some ⟨[], EndB.eofEnd⟩, 1, false⟩

/-- C6: repeated searches on one `StreamScanner` resume where the previous
search stopped and never re-scan consumed lines. Over the lines
one,two,three,four,five (with a never-triggered signal): searching "one",
"two", "four", "five" succeeds in that order — the search for "four"
skips past "three" — and the final search for "three" fails with the
`KeywordNotFound` error because the tokenizer is already exhausted. -/
theorem c6_resumable_search :
    StreamScanner.WaitForKeyword false false c6s0 "one".data = WFKRes.ret c6s1 none ∧
    StreamScanner.WaitForKeyword false false c6s1 "two".data = WFKRes.ret c6s2 none ∧
    StreamScanner.WaitForKeyword false false c6s2 "four".data = WFKRes.ret c6s3 none ∧
    StreamScanner.WaitForKeyword false false c6s3 "five".data = WFKRes.ret c6s4 none ∧
    StreamScanner.WaitForKeyword false false c6s4 "three".data
      = WFKRes.ret c6s4 (some (GoErr.keywordNotFound "three".data)) := by
  decide

/-- C3 counterexample: `StreamScanner.WaitForKeyword` (unlike
`AccumulatedOutput.WaitForKeyword`) has no check of the context before
scanning, so with an already-done context over the stream "one\ntwo"
(unread data containing the keyword available): under the schedule where
the cancellation branch wins the race, a read IS attempted (the attempt
counter of the result is 1, not 0) and the underlying handle is closed,
contradicting "no read is attempted"; and under the schedule where the
spawned read wins, the call SUCCEEDS with a `nil` error, contradicting
"fails immediately with the cancellation error". -/
theorem c3_counterexample :
    StreamScanner.WaitForKeyword true true ⟨"one\ntwo".data, none, 0, false⟩ "one".data
      = WFKRes.ret ⟨"one\ntwo".data, some ⟨[], EndB.fail GoErr.ctxCanceled⟩, 1, true⟩
          (some GoErr.ctxCanceled) ∧
    StreamScanner.WaitForKeyword true false ⟨"one\ntwo".data, none, 0, false⟩ "one".data
      = WFKRes.ret ⟨"one\ntwo".data, some ⟨["two".data], EndB.eofEnd⟩, 1, false⟩ none := by
  decide

/-- C3 amended: the already-triggered short-circuit belongs to
`AccumulatedOutput.WaitForKeyword`: with a triggered signal it fails
immediately with the cancellation error before creating a reader, so no
read is attempted, whatever the buffer holds. `StreamScanner.WaitForKeyword`
performs no such pre-check: on a fresh scanner with a triggered signal it
attempts one read through the cancellable wrapper, and when the
cancellation branch wins the race it closes the underlying handle and
only then returns the cancellation error. -/
theorem c3_short_circuit (a : AccumulatedOutput) (src substr : List Char) :
    AccumulatedOutput.WaitForKeyword true a substr
      = (a, AccRes.done (some GoErr.ctxCanceled) false) ∧
    StreamScanner.WaitForKeyword true true ⟨src, none, 0, false⟩ substr
      = WFKRes.ret ⟨src, some ⟨[], EndB.fail GoErr.ctxCanceled⟩, 1, true⟩
          (some GoErr.ctxCanceled) := by
  constructor
  · simp [AccumulatedOutput.WaitForKeyword]
  · simp [StreamScanner.WaitForKeyword, cancellableReader.Read, waitForKeyword,
      waitForKeywordAux]

/-- C3 amended witness: the short-circuit and the scanner's read attempt
evaluated at the closed one-line buffer "one" and the pattern "one". -/
theorem c3_short_circuit_witness :
    AccumulatedOutput.WaitForKeyword true ⟨⟨"one".data, true⟩⟩ "one".data
      = (⟨⟨"one".data, true⟩⟩, AccRes.done (some GoErr.ctxCanceled) false) ∧
    StreamScanner.WaitForKeyword true true ⟨"one".data, none, 0, false⟩ "one".data
      = WFKRes.ret ⟨"one".data, some ⟨[], EndB.fail GoErr.ctxCanceled⟩, 1, true⟩
          (some GoErr.ctxCanceled) :=
  c3_short_circuit ⟨⟨"one".data, true⟩⟩ "one".data "one".data

/-- C10: every call to `AccumulatedOutput.WaitForKeyword` scans through a
fresh reader handle starting at offset 0 of the accumulated buffer, so
each call re-scans the stream from its very beginning: whenever the
buffer is closed and some already-written line contains the pattern, the
call (with an untriggered signal) succeeds — and since a search never
modifies the accumulated buffer (the post-state below is the argument
itself), every later call on the same `AccumulatedOutput` succeeds in
finding the pattern again rather than resuming past scanned lines. -/
theorem c10_fresh_reader_rescans (a : AccumulatedOutput) (substr : List Char)
    (hc : a.buf.closed = true)
    (hl : ∃ l ∈ goScanLines a.buf.buf, containsSub l substr = true) :
    AccumulatedOutput.WaitForKeyword false a substr = (a, AccRes.done none true) := by
  obtain ⟨sc', hsc⟩ := waitForKeywordAux_finds EndB.eofEnd substr (goScanLines a.buf.buf) hl
  simp [AccumulatedOutput.WaitForKeyword, MRBuffer.NewReader, hc, waitForKeyword, hsc]

/-- C10 witness: the closed buffer holding the lines "hey" and "yo", and
a second search for "yo" finding it again from the start. -/
theorem c10_fresh_reader_rescans_witness :
    AccumulatedOutput.WaitForKeyword false ⟨⟨"hey\nyo".data, true⟩⟩ "yo".data
      = (⟨⟨"hey\nyo".data, true⟩⟩, AccRes.done none true) :=
  c10_fresh_reader_rescans ⟨⟨"hey\nyo".data, true⟩⟩ "yo".data rfl (by decide)

/-! Claim C1: a single reader handle, created at any point of a
write/close history and issuing completed reads interleaved with it,
drains exactly the concatenation of all writes. A reader handle starts at
offset 0 whenever it is created (`NewReader`), so the creation point only
determines which buffer states its reads can observe; the blocking read
loop of `multiBufferReader.Read` re-observes the buffer state on every
wake, so a full read call is a sequence of observations of growing buffer
states in which only the last one returns. A trace of completed reads is
therefore a list of (observed buffer state, request size) pairs. -/

/-- The bytes a completed read delivered into the caller's buffer
(a still-blocked observation delivers nothing yet). -/
def dataOf : ReadRes → List Char
  | ReadRes.ret _ data _ => data
  | ReadRes.blocked => []

/-- One observation of the shared buffer by the reader's loop: the buffer
state seen under the lock and the caller's request size. -/
structure ReadStep where
  bufAt : MRBuffer
  maxBytes : Nat

/-- Run the reader handle through a sequence of observations, collecting
all delivered bytes in order and the final handle state. -/
def runReader : MBReader → List ReadStep → List Char × MBReader
  | r, [] => ([], r)
  | r, s :: rest =>
    let q := MBReader.Read s.bufAt r s.maxBytes
    let p := runReader q.2 rest
    (dataOf q.1 ++ p.1, p.2)

/-- The writer's side: perform the writes of `ws` in order via
`MRBuffer.Write`. -/
def writeAll : MRBuffer → List (List Char) → MRBuffer
  | b, [] => b
  | b, w :: ws => writeAll (MRBuffer.Write b w).1 ws

/-- The buffer states reachable during the history "writes `ws` in order,
then close": after any first `k` writes the buffer is open, and after the
close it is closed with every write applied. -/
def ReachableBuf (ws : List (List Char)) (b : MRBuffer) : Prop :=
  (∃ k, b = writeAll ⟨[], false⟩ (ws.take k)) ∨
  b = (MRBuffer.Close (writeAll ⟨[], false⟩ ws)).1

/-- Writing `ws` in order onto an open buffer appends their
concatenation and leaves it open. -/
lemma writeAll_open (ws : List (List Char)) :
    ∀ acc : List Char, writeAll ⟨acc, false⟩ ws = ⟨acc ++ ws.flatten, false⟩ := by
  induction ws with
  | nil => intro acc; simp [writeAll]
  | cons w ws ih =>
    intro acc
    by_cases hw : w.length = 0
    · have hwnil : w = [] := List.length_eq_zero.mp hw
      simp [writeAll, MRBuffer.Write, hw, ih, hwnil]
    · simp [writeAll, MRBuffer.Write, hw, ih]

/-- Every reachable buffer state holds a front segment of the full write
concatenation, and a closed reachable state holds all of it. -/
lemma reachable_spec (ws : List (List Char)) (b : MRBuffer) (h : ReachableBuf ws b) :
    (∃ t, b.buf ++ t = ws.flatten) ∧ (b.closed = true → b.buf = ws.flatten) := by
  rcases h with ⟨k, hk⟩ | hcl
  · rw [writeAll_open] at hk
    subst hk
    refine ⟨⟨(ws.drop k).flatten, ?_⟩, by intro h; simp at h⟩
    simp only [List.nil_append]
    rw [← List.flatten_append, List.take_append_drop]
  · rw [hcl]
    simp [MRBuffer.Close, writeAll_open]

/-- One blocking-loop observation by an open handle with a valid cursor:
the handle stays open, its cursor does not decrease and stays within the
full concatenation `W`, and the delivered bytes are exactly the segment
of `W` between the old and the new cursor. -/
lemma read_advance (W : List Char) (b : MRBuffer) (r : MBReader) (maxBytes : Nat)
    (hb : ∃ t, b.buf ++ t = W)
    (hc : r.closed = false) (hoff : r.offset ≤ W.length) :
    (MBReader.Read b r maxBytes).2.closed = false ∧
    r.offset ≤ (MBReader.Read b r maxBytes).2.offset ∧
    (MBReader.Read b r maxBytes).2.offset ≤ W.length ∧
    dataOf (MBReader.Read b r maxBytes).1
      = (W.drop r.offset).take ((MBReader.Read b r maxBytes).2.offset - r.offset) := by
  obtain ⟨t, ht⟩ := hb
  by_cases h0 : maxBytes = 0
  · simp [MBReader.Read, h0, hc, hoff, dataOf]
  by_cases hz : ((b.buf.drop r.offset).take maxBytes).length = 0
  · by_cases hcl : b.closed = true
    · simp [MBReader.Read, h0, hc, hz, hcl, hoff, dataOf]
    · simp only [Bool.not_eq_true] at hcl
      simp [MBReader.Read, h0, hc, hz, hcl, hoff, dataOf]
  · have hread : MBReader.Read b r maxBytes
        = (ReadRes.ret ((b.buf.drop r.offset).take maxBytes).length
            ((b.buf.drop r.offset).take maxBytes) none,
           ⟨r.offset + ((b.buf.drop r.offset).take maxBytes).length, false⟩) := by
      unfold MBReader.Read
      rw [if_neg h0, if_neg (by simp [hc]), if_neg hz]
    have hlen : ((b.buf.drop r.offset).take maxBytes).length
        = min maxBytes (b.buf.length - r.offset) := by
      simp [List.length_take, List.length_drop]
    have hofflt : r.offset < b.buf.length := by
      rw [hlen] at hz
      omega
    have hWlen : b.buf.length ≤ W.length := by
      rw [← ht]
      simp
    rw [hread]
    refine ⟨rfl, ?_, ?_, ?_⟩
    · show r.offset ≤ r.offset + ((b.buf.drop r.offset).take maxBytes).length
      omega
    · show r.offset + ((b.buf.drop r.offset).take maxBytes).length ≤ W.length
      rw [hlen]
      omega
    · simp only [dataOf, Nat.add_sub_cancel_left]
      have hdropW : W.drop r.offset = b.buf.drop r.offset ++ t := by
        rw [← ht]
        exact List.drop_append_of_le_length (Nat.le_of_lt hofflt)
      have hxlen : (b.buf.drop r.offset).length = b.buf.length - r.offset := by
        simp
      rw [hdropW, hlen, List.take_append_of_le_length (by rw [hxlen]; omega)]
      by_cases hmx : maxBytes ≤ b.buf.length - r.offset
      · rw [Nat.min_eq_left hmx]
      · rw [Nat.min_eq_right (by omega), List.take_of_length_le (le_of_eq hxlen),
          List.take_of_length_le (by rw [hxlen]; omega)]

/-- Running the reader through any sequence of reachable observations:
the handle stays open, the cursor is monotone and bounded by the full
concatenation, and the collected output is exactly the segment of the
concatenation the cursor moved over. -/
lemma runReader_spec (ws : List (List Char)) (steps : List ReadStep) :
    ∀ r : MBReader, r.closed = false → r.offset ≤ ws.flatten.length →
      (∀ s ∈ steps, ReachableBuf ws s.bufAt) →
      (runReader r steps).2.closed = false ∧
      r.offset ≤ (runReader r steps).2.offset ∧
      (runReader r steps).2.offset ≤ ws.flatten.length ∧
      (runReader r steps).1
        = (ws.flatten.drop r.offset).take ((runReader r steps).2.offset - r.offset) := by
  induction steps with
  | nil =>
    intro r hc hoff _
    exact ⟨hc, Nat.le_refl _, hoff, by simp [runReader, Nat.sub_self]⟩
  | cons s rest ih =>
    intro r hc hoff hst
    obtain ⟨hb, _⟩ := reachable_spec ws s.bufAt (hst s (by simp))
    obtain ⟨h1, h2, h3, h4⟩ := read_advance ws.flatten s.bufAt r s.maxBytes hb hc hoff
    obtain ⟨g1, g2, g3, g4⟩ :=
      ih (MBReader.Read s.bufAt r s.maxBytes).2 h1 h3 (fun x hx => hst x (by simp [hx]))
    have hfst : (runReader r (s :: rest)).1
        = dataOf (MBReader.Read s.bufAt r s.maxBytes).1
          ++ (runReader (MBReader.Read s.bufAt r s.maxBytes).2 rest).1 := rfl
    have hsnd : (runReader r (s :: rest)).2
        = (runReader (MBReader.Read s.bufAt r s.maxBytes).2 rest).2 := rfl
    have hdd : (ws.flatten.drop r.offset).drop
          ((MBReader.Read s.bufAt r s.maxBytes).2.offset - r.offset)
        = ws.flatten.drop ((MBReader.Read s.bufAt r s.maxBytes).2.offset) := by
      rw [List.drop_drop]
      congr 1
      omega
    refine ⟨by rw [hsnd]; exact g1, by rw [hsnd]; omega, by rw [hsnd]; exact g3, ?_⟩
    rw [hfst, hsnd, h4, g4, ← hdd, ← List.take_add]
    congr 1
    omega

/-- C1: for every write history `w1..wn` followed by close, and every
reader handle (a fresh handle starts at offset 0 whatever the creation
point, so the creation point only restricts which buffer states its reads
observe), any sequence of completed reads interleaved with the history
that ends with an end-of-stream report has delivered exactly the
concatenation `w1 ++ .. ++ wn`, in order, with no gaps, duplication or
reordering. -/
theorem c1_reader_sees_all_writes (ws : List (List Char)) (steps : List ReadStep)
    (last : ReadStep) (hst : ∀ s ∈ steps, ReachableBuf ws s.bufAt)
    (hlast : ReachableBuf ws last.bufAt)
    (heof : (MBReader.Read last.bufAt (runReader (MRBuffer.NewReader ⟨[], false⟩) steps).2
        last.maxBytes).1 = ReadRes.ret 0 [] (some GoErr.eof)) :
    (runReader (MRBuffer.NewReader ⟨[], false⟩) steps).1 = ws.flatten := by
  obtain ⟨g1, g2, g3, g4⟩ :=
    runReader_spec ws steps (MRBuffer.NewReader ⟨[], false⟩) rfl (Nat.zero_le _) hst
  obtain ⟨hb, hbc⟩ := reachable_spec ws last.bufAt hlast
  set rf := (runReader (MRBuffer.NewReader ⟨[], false⟩) steps).2 with hrf
  unfold MBReader.Read at heof
  by_cases h0 : last.maxBytes = 0
  · rw [if_pos h0] at heof
    exact absurd heof (by simp)
  rw [if_neg h0, if_neg (by simp [g1])] at heof
  by_cases hz : ((last.bufAt.buf.drop rf.offset).take last.maxBytes).length = 0
  · rw [if_pos hz] at heof
    by_cases hcl : last.bufAt.closed = true
    · have hfull : last.bufAt.buf = ws.flatten := hbc hcl
      rw [hfull] at hz
      have hfoff : rf.offset = ws.flatten.length := by
        rw [List.length_take, List.length_drop] at hz
        omega
      rw [g4]
      show (ws.flatten.drop ((MRBuffer.NewReader ⟨[], false⟩).offset)).take
        (rf.offset - (MRBuffer.NewReader ⟨[], false⟩).offset) = ws.flatten
      show (ws.flatten.drop 0).take (rf.offset - 0) = ws.flatten
      rw [List.drop_zero, Nat.sub_zero, hfoff, List.take_length]
    · rw [if_neg hcl] at heof
      exact absurd heof (by simp)
  · rw [if_neg hz] at heof
    exact absurd heof (by simp)

/-- C1 witness: the writes "ab" then "c" then close; the reader reads 1
byte from the open two-byte state, then 5 bytes from the same state, then
2 bytes from the closed full state, then observes end-of-stream; the
delivered bytes are exactly "abc". -/
theorem c1_reader_sees_all_writes_witness :
    (runReader (MRBuffer.NewReader ⟨[], false⟩)
        [⟨⟨['a', 'b'], false⟩, 1⟩, ⟨⟨['a', 'b'], false⟩, 5⟩, ⟨⟨['a', 'b', 'c'], true⟩, 2⟩]).1
      = [['a', 'b'], ['c']].flatten := by
  apply c1_reader_sees_all_writes [['a', 'b'], ['c']] _ ⟨⟨['a', 'b', 'c'], true⟩, 4⟩
  · intro s hs
    simp only [List.mem_cons, List.not_mem_nil, or_false] at hs
    rcases hs with rfl | rfl | rfl
    · exact Or.inl ⟨1, rfl⟩
    · exact Or.inl ⟨1, rfl⟩
    · exact Or.inr rfl
  · exact Or.inr rfl
  · rfl

/-- C2 (code bug): the lock state at return of each public operation.
`Write` on an open buffer, `Close`, `Read` (closed-handle path and data
path) and the reader's `Close` all return with the mutex free, but
`Write` on a CLOSED buffer returns through part_000:37-39 without ever
calling `Unlock`, leaving the mutex held — the one operation that
violates the claimed invariant. -/
theorem c2_write_on_closed_lock_leak :
    writeLockAtReturn ⟨['x'], true⟩ ['a'] = LockState.held ∧
    writeLockAtReturn ⟨['x'], false⟩ ['a'] = LockState.free ∧
    writeLockAtReturn ⟨['x'], true⟩ [] = LockState.free ∧
    closeLockAtReturn ⟨['x'], true⟩ = LockState.free ∧
    readLockAtReturn ⟨['x'], true⟩ ⟨0, false⟩ 1 = LockState.free ∧
    readLockAtReturn ⟨['x'], false⟩ ⟨0, true⟩ 1 = LockState.free ∧
    readerCloseLockAtReturn ⟨0, false⟩ = LockState.free := by
  decide

end Runner
